import Mathlib

set_option maxRecDepth 16384

/-!
Verification of the table-structure synchronization engine of the Hamster
MySQL GUI (an Electron app).  The embedded code comes from two places:

* `electron/db.ts`, function `saveTableStructure` — the backend that builds
  and executes the actual `CREATE TABLE` / `ALTER TABLE` statement
  (namespace `Db` below);
* `src/components/TableDesigner.tsx` — the editor component, with
  `parseType` / the type-recomposition in `handleUpdateColumn`, the SQL
  preview generator `generateSqlPreview` (namespace `Preview`), and the
  foreign-key list mutations (namespace `Editor`).

Strings model JavaScript strings; a JS value that is only ever tested for
truthiness and interpolated is modelled as a `String` where `""` stands for
`undefined`/`null`/`""` (all falsy).  The one field where the code
distinguishes `null` from `""` is a column's `Default`
(`col.Default !== null && col.Default !== undefined && col.Default !== ''`
versus `col.Default === null`), so `Default` is an `Option String` with
`none` for `null`.
-/

namespace Hamster

/-- `l.contains '\n'` tracks which strings the JS regex `.` can span:
`.` does not match a newline. -/
def noNL (l : List Char) : Bool := !(l.contains '\x0a')

/-- Does list `s` start with list `p`?  (Backing for the JS `includes` on
strings; `String.startsWith` is avoided because it does not reduce.) -/
def listStartsWith : List Char → List Char → Bool
  | _, [] => true
  | [], _ :: _ => false
  | c :: cs, p :: ps => c == p && listStartsWith cs ps

/-- Does list `s` contain list `p` as a contiguous sublist? -/
def listHasSub : List Char → List Char → Bool
  | s, p => listStartsWith s p ||
      match s with
      | [] => false
      | _ :: cs => listHasSub cs p

/-- JS `s.includes(p)` for non-empty patterns. -/
def strIncludes (s p : String) : Bool := listHasSub s.data p.data

/-- JS `s || d`: `s` when truthy (non-empty), else the fallback `d`. -/
def orDefault (s d : String) : String := if s ≠ "" then s else d

/-- One column row as the editor holds it (`ColumnDefinition` in
`TableDesigner.tsx`; the same shape is passed to `saveTableStructure`).
The source's `Type` field is called `TypeStr` (`Type` is reserved in Lean). -/
structure ColumnDefinition where
  Field : String
  TypeStr : String
  Null : String
  Key : String
  Default : Option String
  Extra : String
  Comment : String
  isNew : Bool
  originalField : String
  Unsigned : Bool
  Zerofill : Bool
  AutoIncrement : Bool
  Charset : String
  Collation : String
  deriving Repr, DecidableEq

/-- A column row of the live table as `getTableExtendedInfo` returns it
(`SHOW FULL COLUMNS`).  `saveTableStructure` only ever reads `Field` of
these rows. -/
structure DbColumn where
  Field : String
  deriving Repr, DecidableEq

/-- One index row (`IndexDefinition` in `TableDesigner.tsx`; one row per
column of the index). -/
structure IndexDefinition where
  Key_name : String
  Column_name : String
  Non_unique : Nat
  Index_type : String
  Seq_in_index : Nat
  IndexKind : String
  Comment : String
  deriving Repr, DecidableEq

/-- One foreign-key constraint (`ForeignKeyDefinition` in
`TableDesigner.tsx`).  `""` in a rule or in `originalName` models the JS
`undefined`. -/
structure ForeignKeyDefinition where
  CONSTRAINT_NAME : String
  COLUMN_NAME : String
  REFERENCED_TABLE_NAME : String
  REFERENCED_COLUMN_NAME : String
  UPDATE_RULE : String
  DELETE_RULE : String
  isNew : Bool
  isDeleted : Bool
  originalName : String
  deriving Repr, DecidableEq

/-- Table-level options (`TableOptions`); every field is tested for JS
truthiness only, so `""` models an absent value (`Auto_increment` is kept
as the string the UI holds). -/
structure TableOptions where
  Engine : String
  Charset : String
  Collation : String
  Comment : String
  Auto_increment : String
  Row_format : String
  deriving Repr, DecidableEq

/-- A `TableOptions` with every field unset. -/
def emptyOptions : TableOptions :=
  { Engine := "", Charset := "", Collation := "", Comment := "",
    Auto_increment := "", Row_format := "" }

end Hamster

namespace Hamster.Db

/-! ## `electron/db.ts`, `saveTableStructure` -/

open Hamster

/-- `if (col.Unsigned && !col.Type.toLowerCase().includes('unsigned')) def += ' UNSIGNED'` -/
def unsignedPart (col : ColumnDefinition) : String :=
  if col.Unsigned && !(strIncludes col.TypeStr.toLower "unsigned") then " UNSIGNED" else ""

/-- `if (col.Zerofill && !col.Type.toLowerCase().includes('zerofill')) def += ' ZEROFILL'` -/
def zerofillPart (col : ColumnDefinition) : String :=
  if col.Zerofill && !(strIncludes col.TypeStr.toLower "zerofill") then " ZEROFILL" else ""

/-- `if (col.Charset && col.Charset !== 'Default') def += \` CHARACTER SET ${col.Charset}\`` -/
def charsetPart (col : ColumnDefinition) : String :=
  if col.Charset ≠ "" ∧ col.Charset ≠ "Default" then " CHARACTER SET " ++ col.Charset else ""

/-- `if (col.Collation && col.Collation !== 'Default') def += \` COLLATE ${col.Collation}\`` -/
def collationPart (col : ColumnDefinition) : String :=
  if col.Collation ≠ "" ∧ col.Collation ≠ "Default" then " COLLATE " ++ col.Collation else ""

/-- `if (col.Null === 'NO') def += ' NOT NULL'; else def += ' NULL'` -/
def nullPart (col : ColumnDefinition) : String :=
  if col.Null = "NO" then " NOT NULL" else " NULL"

/-- The `DEFAULT` fragment of `buildColumnDef` in `saveTableStructure`:
non-empty defaults are rendered (the two sentinels as bare keywords, every
other value interpolated between single quotes verbatim), and a `null`
default on a nullable column yields an explicit `DEFAULT NULL`. -/
def defaultPart (col : ColumnDefinition) : String :=
  if col.Default ≠ none ∧ col.Default ≠ some "" then
    if col.Default = some "CURRENT_TIMESTAMP" then " DEFAULT CURRENT_TIMESTAMP"
    else if col.Default = some "NULL" then " DEFAULT NULL"
    else " DEFAULT '" ++ col.Default.getD "" ++ "'"
  else if col.Null = "YES" ∧ (col.Default = none ∨ col.Default = some "NULL") then
    " DEFAULT NULL"
  else ""

/-- `if (col.Extra) def += \` ${col.Extra}\`` -/
def extraPart (col : ColumnDefinition) : String :=
  if col.Extra ≠ "" then " " ++ col.Extra else ""

/-- `if (col.Comment) def += \` COMMENT '${col.Comment}'\`` -/
def commentPart (col : ColumnDefinition) : String :=
  if col.Comment ≠ "" then " COMMENT '" ++ col.Comment ++ "'" else ""

/-- `buildColumnDef` of `saveTableStructure` (`electron/db.ts`): the parts
are appended in the source's order onto `` `name` type ``. -/
def buildColumnDef (col : ColumnDefinition) : String :=
  "`" ++ col.Field ++ "` " ++ col.TypeStr
    ++ unsignedPart col ++ zerofillPart col ++ charsetPart col ++ collationPart col
    ++ nullPart col ++ defaultPart col ++ extraPart col ++ commentPart col

/-- One step of `groupIndexes`: push `idx` onto the group of its
`Key_name`, creating the group at the end on first sight (JS object keys
iterate in insertion order). -/
def addToGroups (groups : List (String × List IndexDefinition)) (idx : IndexDefinition) :
    List (String × List IndexDefinition) :=
  if groups.any (fun g => g.1 == idx.Key_name) then
    groups.map (fun g => if g.1 == idx.Key_name then (g.1, g.2 ++ [idx]) else g)
  else groups ++ [(idx.Key_name, [idx])]

/-- `groupIndexes` of `saveTableStructure`: group index rows by `Key_name`,
keeping first-occurrence order of the keys and row order inside a group. -/
def groupIndexes (idxs : List IndexDefinition) : List (String × List IndexDefinition) :=
  idxs.foldl addToGroups []

/-- `groups[key]` on the grouping object. -/
def lookupGroup (groups : List (String × List IndexDefinition)) (k : String) :
    Option (List IndexDefinition) :=
  (groups.find? (fun g => g.1 == k)).map (fun g => g.2)

/-- Stable insertion of `x` after every already-placed row whose
`Seq_in_index` is not larger (the JS `sort((a, b) => a.Seq_in_index - b.Seq_in_index)`
is a stable ascending sort). -/
def insertBySeq (x : IndexDefinition) : List IndexDefinition → List IndexDefinition
  | [] => [x]
  | y :: ys => if y.Seq_in_index ≤ x.Seq_in_index then y :: insertBySeq x ys else x :: y :: ys

/-- `idxParts.sort((a, b) => a.Seq_in_index - b.Seq_in_index)`. -/
def sortBySeq (l : List IndexDefinition) : List IndexDefinition :=
  l.foldl (fun acc x => insertBySeq x acc) []

/-- `buildIndexDef` of `saveTableStructure`: render one index group.  A
group coming from `groupIndexes` is never empty; on the unreachable empty
group the `first`-dependent branch renders with empty fields. -/
def buildIndexDef (keyName : String) (idxParts : List IndexDefinition) : String :=
  let sorted := sortBySeq idxParts
  let cols := String.intercalate ", " (sorted.map (fun p => "`" ++ p.Column_name ++ "`"))
  if keyName = "PRIMARY" then "PRIMARY KEY (" ++ cols ++ ")"
  else
    match sorted.head? with
    | some first =>
      if first.IndexKind = "UNIQUE" then "UNIQUE KEY `" ++ keyName ++ "` (" ++ cols ++ ")"
      else if first.IndexKind = "FULLTEXT" then "FULLTEXT KEY `" ++ keyName ++ "` (" ++ cols ++ ")"
      else "KEY `" ++ keyName ++ "` (" ++ cols ++ ") USING " ++ first.Index_type
    | none => "KEY `" ++ keyName ++ "` (" ++ cols ++ ") USING "

/-- The key a non-new column is matched with: `col.originalField || col.Field`. -/
def matchKey (col : ColumnDefinition) : String :=
  if col.originalField ≠ "" then col.originalField else col.Field

/-- The column loop of the `ALTER TABLE` branch: returns the clauses it
pushes (in loop order) together with the `processedCurrentCols` name set
(as a list; only membership is used). -/
def alterColPass (currentCols : List DbColumn) :
    List ColumnDefinition → List String × List String
  | [] => ([], [])
  | col :: rest =>
    let acc := alterColPass currentCols rest
    if col.isNew then
      (("ADD COLUMN " ++ buildColumnDef col) :: acc.1, acc.2)
    else
      match currentCols.find? (fun c => c.Field == matchKey col) with
      | some current =>
        ((if col.Field ≠ current.Field then
            "CHANGE COLUMN `" ++ current.Field ++ "` " ++ buildColumnDef col
          else
            "MODIFY COLUMN " ++ buildColumnDef col) :: acc.1,
         current.Field :: acc.2)
      | none =>
        (("ADD COLUMN " ++ buildColumnDef col) :: acc.1, acc.2)

/-- The drop loop: every live column whose name was not processed by the
column loop becomes a `DROP COLUMN`. -/
def dropColClauses (currentCols : List DbColumn) (processed : List String) : List String :=
  (currentCols.filter (fun c => !(processed.contains c.Field))).map
    (fun c => "DROP COLUMN `" ++ c.Field ++ "`")

/-- The drop clause for index key `k`. -/
def dropIndexClause (k : String) : String :=
  if k = "PRIMARY" then "DROP PRIMARY KEY" else "DROP INDEX `" ++ k ++ "`"

/-- The index drop loop: the source pushes the same drop clause whether or
not the key still exists in the edited snapshot (both branches of its
`if (!newGroups[key])` drop), so every old key is dropped. -/
def idxDropClauses (oldGroups newGroups : List (String × List IndexDefinition)) : List String :=
  oldGroups.map (fun g =>
    if lookupGroup newGroups g.1 = none then dropIndexClause g.1 else dropIndexClause g.1)

/-- The index add loop: every group of the edited snapshot is `ADD`ed. -/
def idxAddClauses (newGroups : List (String × List IndexDefinition)) : List String :=
  newGroups.map (fun g => "ADD " ++ buildIndexDef g.1 g.2)

/-- The `optionSql` list: one fragment per truthy option. -/
def optionFragments (options : TableOptions) : List String :=
  (if options.Engine ≠ "" then ["ENGINE=" ++ options.Engine] else [])
  ++ (if options.Charset ≠ "" then ["DEFAULT CHARSET=" ++ options.Charset] else [])
  ++ (if options.Collation ≠ "" then ["COLLATE=" ++ options.Collation] else [])
  ++ (if options.Comment ≠ "" then ["COMMENT='" ++ options.Comment ++ "'"] else [])
  ++ (if options.Auto_increment ≠ "" then ["AUTO_INCREMENT=" ++ options.Auto_increment] else [])
  ++ (if options.Row_format ≠ "" then ["ROW_FORMAT=" ++ options.Row_format] else [])

/-- The complete `alters` array of `saveTableStructure`'s `ALTER TABLE`
branch, built from the edited snapshot (`columns`, `indexes`, `options`)
and the live schema fetched at save time (`currentCols`, `currentIndexes`).
The `foreignKeys` argument of `saveTableStructure` is never read in this
branch, hence no foreign-key parameter. -/
def alterClauses (columns : List ColumnDefinition) (currentCols : List DbColumn)
    (indexes : List IndexDefinition) (currentIndexes : List IndexDefinition)
    (options : TableOptions) : List String :=
  let pass := alterColPass currentCols columns
  let optionSql := optionFragments options
  pass.1
    ++ dropColClauses currentCols pass.2
    ++ idxDropClauses (groupIndexes currentIndexes) (groupIndexes indexes)
    ++ idxAddClauses (groupIndexes indexes)
    ++ (if optionSql.length > 0 then [String.intercalate " " optionSql] else [])

/-- The statement the `ALTER TABLE` branch executes: `none` when
`alters.length === 0` (the source then simply skips the query — there is
no error path), otherwise the joined statement. -/
def alterStatement (database tableName : String)
    (columns : List ColumnDefinition) (currentCols : List DbColumn)
    (indexes : List IndexDefinition) (currentIndexes : List IndexDefinition)
    (options : TableOptions) : Option String :=
  let alters := alterClauses columns currentCols indexes currentIndexes options
  if alters.length > 0 then
    some ("ALTER TABLE `" ++ database ++ "`.`" ++ tableName ++ "` "
      ++ String.intercalate ",\n" alters)
  else none

/-- The statement the `isNew` (CREATE TABLE) branch of `saveTableStructure`
always builds and executes.  Note that `foreignKeys` is accepted (as in the
source's signature) but never used: the source renders only columns and
indexes. -/
def createStatement (database newTableName : String)
    (columns : List ColumnDefinition) (indexes : List IndexDefinition)
    (foreignKeys : List ForeignKeyDefinition) (options : TableOptions) : String :=
  let _ := foreignKeys
  let lines := columns.map (fun col => "  " ++ buildColumnDef col)
    ++ (groupIndexes indexes).map (fun g => "  " ++ buildIndexDef g.1 g.2)
  "CREATE TABLE `" ++ database ++ "`.`" ++ newTableName ++ "` (\n"
    ++ String.intercalate ",\n" lines
    ++ "\n) ENGINE=" ++ orDefault options.Engine "InnoDB"
    ++ " DEFAULT CHARSET=" ++ orDefault options.Charset "utf8mb4"
    ++ " COLLATE=" ++ orDefault options.Collation "utf8mb4_general_ci"
    ++ (if options.Comment ≠ "" then " COMMENT='" ++ options.Comment ++ "'" else "")
    ++ (if options.Auto_increment ≠ "" then " AUTO_INCREMENT=" ++ options.Auto_increment else "")

end Hamster.Db

namespace Hamster.TypeDesc

/-! ## `TableDesigner.tsx`: `parseType` and the type recomposition

`parseType` applies the JS regex `^(\w+)(?:\((.+)\))?(?: (.+))?$` to the
raw type string.  The embedding implements that regex's behaviour
directly: `\w+` greedily takes the maximal word prefix (backtracking it
can never help, because the following character would have to match `(`,
a space or the end); the optional parenthesis group is greedy, i.e. its
`(.+)` content runs to the *last* `)` that still lets the rest of the
string match; `.` never matches a newline. -/

open Hamster

/-- JS `\w`: letters, digits and underscore. -/
def isWordChar (c : Char) : Bool :=
  ('a' ≤ c && c ≤ 'z') || ('A' ≤ c && c ≤ 'Z') || ('0' ≤ c && c ≤ '9') || c = '_'

/-- Maximal `\w*` prefix and the remaining characters. -/
def takeWord : List Char → List Char × List Char
  | [] => ([], [])
  | c :: cs =>
    if isWordChar c then
      let r := takeWord cs
      (c :: r.1, r.2)
    else ([], c :: cs)

/-- All decompositions `body = content ++ ')' :: tail`, ordered by
increasing content length. -/
def splitsAtRParen : List Char → List (List Char × List Char)
  | [] => []
  | c :: rest =>
    (if c = ')' then [(([] : List Char), rest)] else [])
      ++ (splitsAtRParen rest).map (fun s => (c :: s.1, s.2))

/-- Can `tail` finish the match after the closing `)`: either the end of
the string, or the optional suffix group `(?: (.+))?` — a space followed
by at least one non-newline character. -/
def checkTail (content tail : List Char) : Option (List Char × Option (List Char)) :=
  if content ≠ [] ∧ noNL content then
    match tail with
    | [] => some (content, none)
    | ' ' :: e => if e ≠ [] ∧ noNL e then some (content, some e) else none
    | _ => none
  else none

/-- The greedy parenthesis group: try the split with the longest content
first, then backtrack. -/
def greedyParen (body : List Char) : Option (List Char × Option (List Char)) :=
  ((splitsAtRParen body).reverse.filterMap (fun s => checkTail s.1 s.2)).head?

/-- The whole regex match: `some (name, lengthGroup, suffixGroup)` when
`^(\w+)(?:\((.+)\))?(?: (.+))?$` matches, `none` otherwise. -/
def matchType (s : List Char) : Option (List Char × Option (List Char) × Option (List Char)) :=
  let w := takeWord s
  if w.1 = [] then none
  else
    match w.2 with
    | [] => some (w.1, none, none)
    | '(' :: body =>
      match greedyParen body with
      | some r => some (w.1, some r.1, r.2)
      | none => none
    | ' ' :: e => if e ≠ [] ∧ noNL e then some (w.1, none, some e) else none
    | _ => none

/-- The record `parseType` returns.  The source's `length` is
`match[2]` (`undefined` when the group did not participate) — since every
consumer only tests it for truthiness, the absent group is modelled as
`""`, exactly like the `''` the source substitutes when the regex fails. -/
structure ParsedType where
  type : String
  length : String
  extra : String
  unsigned : Bool
  zerofill : Bool
  deriving Repr, DecidableEq

/-- `parseType` of `TableDesigner.tsx`: on a failed match the whole input
is kept as the type and everything else is empty; on a match, `unsigned` /
`zerofill` are substring tests on the suffix group (`extra`). -/
def parseType (fullType : String) : ParsedType :=
  match matchType fullType.data with
  | none =>
    { type := fullType, length := "", extra := "", unsigned := false, zerofill := false }
  | some m =>
    let extra := match m.2.2 with
      | some e => String.mk e
      | none => ""
    { type := String.mk m.1
      length := match m.2.1 with
        | some l => String.mk l
        | none => ""
      extra := extra
      unsigned := strIncludes extra "unsigned"
      zerofill := strIncludes extra "zerofill" }

/-- The type recomposition in `handleUpdateColumn`: start from the base
type, append `(length)` when the length is truthy, then ` unsigned` and
` zerofill` when the flags are set. -/
def composeType (t l : String) (u z : Bool) : String :=
  let typeStr := t
  let typeStr := if l ≠ "" then typeStr ++ "(" ++ l ++ ")" else typeStr
  let typeStr := if u then typeStr ++ " unsigned" else typeStr
  if z then typeStr ++ " zerofill" else typeStr

end Hamster.TypeDesc

namespace Hamster.Preview

/-! ## `TableDesigner.tsx`: `generateSqlPreview` -/

open Hamster

/-- The `DEFAULT` fragment of the preview's `buildColumnDef`: like the
backend's, except that *any* falsy default (null or the empty string) on a
nullable column yields `DEFAULT NULL`. -/
def defaultPart (col : ColumnDefinition) : String :=
  if col.Default ≠ none ∧ col.Default ≠ some "" then
    if col.Default = some "CURRENT_TIMESTAMP" then " DEFAULT CURRENT_TIMESTAMP"
    else if col.Default = some "NULL" then " DEFAULT NULL"
    else " DEFAULT '" ++ col.Default.getD "" ++ "'"
  else if col.Null = "YES" then " DEFAULT NULL"
  else ""

/-- `buildColumnDef` of `generateSqlPreview`: same shape as the backend's
but it renders ` AUTO_INCREMENT` from the `AutoIncrement` flag instead of
appending `col.Extra`. -/
def buildColumnDef (col : ColumnDefinition) : String :=
  "`" ++ col.Field ++ "` " ++ col.TypeStr
    ++ Db.unsignedPart col ++ Db.zerofillPart col ++ Db.charsetPart col ++ Db.collationPart col
    ++ Db.nullPart col ++ defaultPart col
    ++ (if col.AutoIncrement then " AUTO_INCREMENT" else "")
    ++ Db.commentPart col

/-- `buildIndexDef` of `generateSqlPreview` (single row, single column). -/
def buildIndexDef (keyName : String) (idx : IndexDefinition) : String :=
  let cols := "`" ++ idx.Column_name ++ "`"
  if keyName = "PRIMARY" then "PRIMARY KEY (" ++ cols ++ ")"
  else if idx.IndexKind = "UNIQUE" then "UNIQUE KEY `" ++ keyName ++ "` (" ++ cols ++ ")"
  else if idx.IndexKind = "FULLTEXT" then "FULLTEXT KEY `" ++ keyName ++ "` (" ++ cols ++ ")"
  else "KEY `" ++ keyName ++ "` (" ++ cols ++ ") USING " ++ idx.Index_type

/-- `buildFkDef` of `generateSqlPreview`; absent rules fall back to
`RESTRICT`. -/
def buildFkDef (fk : ForeignKeyDefinition) : String :=
  "CONSTRAINT `" ++ fk.CONSTRAINT_NAME ++ "` FOREIGN KEY (`" ++ fk.COLUMN_NAME
    ++ "`) REFERENCES `" ++ fk.REFERENCED_TABLE_NAME ++ "` (`" ++ fk.REFERENCED_COLUMN_NAME
    ++ "`) ON UPDATE " ++ orDefault fk.UPDATE_RULE "RESTRICT"
    ++ " ON DELETE " ++ orDefault fk.DELETE_RULE "RESTRICT"

/-- The `CREATE TABLE` preview (the `isNewTable` branch): columns, index
rows, the non-deleted foreign keys, then each truthy table option. -/
def createSql (database tableName : String)
    (columns : List ColumnDefinition) (indexes : List IndexDefinition)
    (foreignKeys : List ForeignKeyDefinition) (options : TableOptions) : String :=
  let lines := columns.map (fun col => "  " ++ buildColumnDef col)
    ++ indexes.map (fun idx => "  " ++ buildIndexDef idx.Key_name idx)
    ++ (foreignKeys.filter (fun fk => !fk.isDeleted)).map (fun fk => "  " ++ buildFkDef fk)
  "CREATE TABLE `" ++ database ++ "`.`" ++ tableName ++ "` (\n"
    ++ String.intercalate ",\n" lines
    ++ "\n)"
    ++ (if options.Engine ≠ "" then " ENGINE=" ++ options.Engine else "")
    ++ (if options.Charset ≠ "" then " DEFAULT CHARSET=" ++ options.Charset else "")
    ++ (if options.Collation ≠ "" then " COLLATE=" ++ options.Collation else "")
    ++ (if options.Comment ≠ "" then " COMMENT='" ++ options.Comment ++ "'" else "")
    ++ (if options.Auto_increment ≠ "" then " AUTO_INCREMENT=" ++ options.Auto_increment else "")
    ++ ";"

/-- The preview's per-column change test (`Type`, `Null`, `Default`,
`Comment` only). -/
def colChanged (col orig : ColumnDefinition) : Bool :=
  col.TypeStr != orig.TypeStr || col.Null != orig.Null
    || col.Default != orig.Default || col.Comment != orig.Comment

/-- The preview's per-foreign-key change test (all five attributes). -/
def fkChanged (fk orig : ForeignKeyDefinition) : Bool :=
  fk.COLUMN_NAME != orig.COLUMN_NAME
    || fk.REFERENCED_TABLE_NAME != orig.REFERENCED_TABLE_NAME
    || fk.REFERENCED_COLUMN_NAME != orig.REFERENCED_COLUMN_NAME
    || fk.UPDATE_RULE != orig.UPDATE_RULE
    || fk.DELETE_RULE != orig.DELETE_RULE

/-- The `originalColNames` set: `c.originalField || c.Field` over the
original snapshot. -/
def originalColNames (origCols : List ColumnDefinition) : List String :=
  origCols.map (fun c => orDefault c.originalField c.Field)

/-- The column clauses of the ALTER preview: adds (`isNew`), then
modifies/renames (non-new columns whose truthy `originalField` is a known
original name), then drops (original columns referenced by no current
column's `originalField` or `Field`). -/
def colClauses (columns origCols : List ColumnDefinition) : List String :=
  (columns.filter (fun c => c.isNew)).map (fun col => "ADD COLUMN " ++ buildColumnDef col)
  ++ (columns.filter (fun c =>
        !c.isNew && c.originalField ≠ "" && (originalColNames origCols).contains c.originalField)).flatMap
      (fun col =>
        match origCols.find? (fun o => o.Field == col.originalField) with
        | some orig =>
          if col.Field ≠ orig.Field then
            ["CHANGE COLUMN `" ++ orig.Field ++ "` " ++ buildColumnDef col]
          else if colChanged col orig then
            ["MODIFY COLUMN " ++ buildColumnDef col]
          else []
        | none => [])
  ++ (origCols.filter (fun orig =>
        !(columns.any (fun c => c.originalField == orig.Field || c.Field == orig.Field)))).map
      (fun orig => "DROP COLUMN `" ++ orig.Field ++ "`")

/-- The index clauses of the ALTER preview: drops of original key names no
longer present, adds of current key names not originally present (by
`Key_name` only; untouched indexes produce nothing). -/
def idxClauses (indexes origIdxs : List IndexDefinition) : List String :=
  (origIdxs.filter (fun idx => !((indexes.map (fun i => i.Key_name)).contains idx.Key_name))).map
    (fun idx => if idx.Key_name = "PRIMARY" then "DROP PRIMARY KEY"
                else "DROP INDEX `" ++ idx.Key_name ++ "`")
  ++ (indexes.filter (fun idx => !((origIdxs.map (fun i => i.Key_name)).contains idx.Key_name))).map
    (fun idx => "ADD " ++ buildIndexDef idx.Key_name idx)

/-- The foreign-key clauses of the ALTER preview: drops of deleted
constraints with a known `originalName`, adds of new undeleted ones, then
for each surviving constraint whose attributes changed a drop/add pair. -/
def fkClauses (foreignKeys origFks : List ForeignKeyDefinition) : List String :=
  (foreignKeys.filter (fun fk => fk.isDeleted && fk.originalName ≠ "")).map
    (fun fk => "DROP FOREIGN KEY `" ++ fk.originalName ++ "`")
  ++ (foreignKeys.filter (fun fk => fk.isNew && !fk.isDeleted)).map
    (fun fk => "ADD " ++ buildFkDef fk)
  ++ (foreignKeys.filter (fun fk => !fk.isNew && !fk.isDeleted && fk.originalName ≠ "")).flatMap
    (fun fk =>
      match origFks.find? (fun o => o.CONSTRAINT_NAME == fk.originalName) with
      | some orig =>
        if fkChanged fk orig then
          ["DROP FOREIGN KEY `" ++ fk.originalName ++ "`", "ADD " ++ buildFkDef fk]
        else []
      | none => [])

/-- The option clauses of the ALTER preview: each of the four compared
options that differs from the original (note the backend re-states them
all; the preview diffs them). -/
def optionChanges (options origOptions : TableOptions) : List String :=
  (if options.Engine ≠ origOptions.Engine then ["ENGINE=" ++ options.Engine] else [])
  ++ (if options.Charset ≠ origOptions.Charset then ["DEFAULT CHARSET=" ++ options.Charset] else [])
  ++ (if options.Collation ≠ origOptions.Collation then ["COLLATE=" ++ options.Collation] else [])
  ++ (if options.Comment ≠ origOptions.Comment then ["COMMENT='" ++ options.Comment ++ "'"] else [])

/-- The full `alterStatements` array of `generateSqlPreview`. -/
def alterClauses (columns origCols : List ColumnDefinition)
    (indexes origIdxs : List IndexDefinition)
    (foreignKeys origFks : List ForeignKeyDefinition)
    (options origOptions : TableOptions) : List String :=
  colClauses columns origCols
    ++ idxClauses indexes origIdxs
    ++ fkClauses foreignKeys origFks
    ++ (let oc := optionChanges options origOptions
        if oc.length > 0 then [String.intercalate " " oc] else [])

/-- The ALTER preview text: `-- No changes detected` when the clause list
is empty, else the joined `ALTER TABLE` statement. -/
def alterSql (database tableName : String)
    (columns origCols : List ColumnDefinition)
    (indexes origIdxs : List IndexDefinition)
    (foreignKeys origFks : List ForeignKeyDefinition)
    (options origOptions : TableOptions) : String :=
  let alterStatements :=
    alterClauses columns origCols indexes origIdxs foreignKeys origFks options origOptions
  if alterStatements.length = 0 then "-- No changes detected"
  else
    "ALTER TABLE `" ++ database ++ "`.`" ++ tableName ++ "`\n  "
      ++ String.intercalate ",\n  " alterStatements ++ ";"

end Hamster.Preview

namespace Hamster.Editor

/-! ## `TableDesigner.tsx`: the foreign-key list and its mutations

The editor owns `foreignKeys : ForeignKeyDefinition[]`.  It is populated
by `fetchStructure` and mutated only by `handleAddForeignKey`,
`handleUpdateForeignKey` (invoked by the properties panel for exactly six
fields) and `handleDeleteForeignKey`. -/

open Hamster

/-- One row returned by the `db:get-foreign-keys-with-rules` query (the
fields selected from `information_schema`). -/
structure RawForeignKey where
  CONSTRAINT_NAME : String
  COLUMN_NAME : String
  REFERENCED_TABLE_NAME : String
  REFERENCED_COLUMN_NAME : String
  UPDATE_RULE : String
  DELETE_RULE : String
  deriving Repr, DecidableEq

/-- `fetchStructure`'s processing of fetched foreign keys:
`{ ...fk, originalName: fk.CONSTRAINT_NAME }` (the lifecycle flags are
absent on a fetched row, i.e. false). -/
def loadForeignKeys (raws : List RawForeignKey) : List ForeignKeyDefinition :=
  raws.map (fun fk =>
    { CONSTRAINT_NAME := fk.CONSTRAINT_NAME
      COLUMN_NAME := fk.COLUMN_NAME
      REFERENCED_TABLE_NAME := fk.REFERENCED_TABLE_NAME
      REFERENCED_COLUMN_NAME := fk.REFERENCED_COLUMN_NAME
      UPDATE_RULE := fk.UPDATE_RULE
      DELETE_RULE := fk.DELETE_RULE
      isNew := false
      isDeleted := false
      originalName := fk.CONSTRAINT_NAME })

/-- The fields `handleUpdateForeignKey` is invoked with from the
foreign-key properties panel. -/
inductive FkField where
  | constraintName
  | columnName
  | referencedTableName
  | referencedColumnName
  | updateRule
  | deleteRule
  deriving Repr, DecidableEq

/-- `handleUpdateForeignKey`'s update of one record: set the field; when
the referenced table changes, the referenced column is reset. -/
def updateFkField (fk : ForeignKeyDefinition) (field : FkField) (value : String) :
    ForeignKeyDefinition :=
  match field with
  | .constraintName => { fk with CONSTRAINT_NAME := value }
  | .columnName => { fk with COLUMN_NAME := value }
  | .referencedTableName =>
    { fk with REFERENCED_TABLE_NAME := value, REFERENCED_COLUMN_NAME := "" }
  | .referencedColumnName => { fk with REFERENCED_COLUMN_NAME := value }
  | .updateRule => { fk with UPDATE_RULE := value }
  | .deleteRule => { fk with DELETE_RULE := value }

/-- Replace the element at position `i` (identity elsewhere), as the
`prev.map((fk, i) => ...)` updates do. -/
def updateAt (i : Nat) (f : α → α) : List α → List α
  | [] => []
  | x :: xs =>
    match i with
    | 0 => f x :: xs
    | n + 1 => x :: updateAt n f xs

/-- The record `handleAddForeignKey` appends: a fresh constraint name (it
embeds a timestamp, so it is a parameter here), the first column and first
available table, `RESTRICT` rules, `isNew` set and no `originalName`. -/
def newForeignKey (name colName refTable : String) : ForeignKeyDefinition :=
  { CONSTRAINT_NAME := name
    COLUMN_NAME := colName
    REFERENCED_TABLE_NAME := refTable
    REFERENCED_COLUMN_NAME := ""
    UPDATE_RULE := "RESTRICT"
    DELETE_RULE := "RESTRICT"
    isNew := true
    isDeleted := false
    originalName := "" }

/-- The foreign-key mutations the designer UI can perform on the list. -/
inductive FkOp where
  | addFk (name colName refTable : String)
  | updateFk (i : Nat) (field : FkField) (value : String)
  | deleteFk (i : Nat)
  deriving Repr, DecidableEq

/-- One UI mutation of the foreign-key list.  `handleDeleteForeignKey`
removes a still-new row outright and only marks a loaded row as deleted
(the guard `fk.isNew`); an out-of-range index leaves the list unchanged
(the UI only ever passes indices of rendered rows). -/
def applyFkOp (l : List ForeignKeyDefinition) : FkOp → List ForeignKeyDefinition
  | .addFk name colName refTable => l ++ [newForeignKey name colName refTable]
  | .updateFk i field value => updateAt i (fun fk => updateFkField fk field value) l
  | .deleteFk i =>
    match l.get? i with
    | some fk => if fk.isNew then l.eraseIdx i else updateAt i (fun f => { f with isDeleted := true }) l
    | none => l

/-- A whole editing session on the foreign-key list. -/
def applyFkOps (l : List ForeignKeyDefinition) (ops : List FkOp) : List ForeignKeyDefinition :=
  ops.foldl applyFkOp l

end Hamster.Editor

namespace Hamster.Fix

/-! ## Concrete fixtures used by counterexamples and witnesses -/

open Hamster

/-- A blank editor column: every string empty, `Default` null, flags off. -/
def baseCol : ColumnDefinition :=
  { Field := "", TypeStr := "", Null := "YES", Key := "", Default := none,
    Extra := "", Comment := "", isNew := false, originalField := "",
    Unsigned := false, Zerofill := false, AutoIncrement := false,
    Charset := "", Collation := "" }

/-- A blank index row. -/
def baseIdx : IndexDefinition :=
  { Key_name := "", Column_name := "", Non_unique := 0, Index_type := "BTREE",
    Seq_in_index := 1, IndexKind := "", Comment := "" }

/-- A blank foreign key. -/
def baseFk : ForeignKeyDefinition :=
  { CONSTRAINT_NAME := "", COLUMN_NAME := "", REFERENCED_TABLE_NAME := "",
    REFERENCED_COLUMN_NAME := "", UPDATE_RULE := "", DELETE_RULE := "",
    isNew := false, isDeleted := false, originalName := "" }

/-- The default `id` column of a fresh table (as the designer creates it). -/
def colIdNew : ColumnDefinition :=
  { baseCol with
    Field := "id", TypeStr := "int(11)", Null := "NO", Key := "PRI"
    Extra := "auto_increment", isNew := true, AutoIncrement := true }

/-- The matching `PRIMARY` index row. -/
def idxPrimary : IndexDefinition :=
  { baseIdx with Key_name := "PRIMARY", Column_name := "id", IndexKind := "PRIMARY" }

/-- A non-deleted foreign key of the edited snapshot of a new table. -/
def fkOrdersUser : ForeignKeyDefinition :=
  { baseFk with
    CONSTRAINT_NAME := "fk_orders_user", COLUMN_NAME := "user_id"
    REFERENCED_TABLE_NAME := "users", REFERENCED_COLUMN_NAME := "id"
    UPDATE_RULE := "RESTRICT", DELETE_RULE := "CASCADE", isNew := true }

/-- InnoDB/utf8mb4 table options. -/
def optsInnoDB : TableOptions :=
  { emptyOptions with
    Engine := "InnoDB", Charset := "utf8mb4"
    Collation := "utf8mb4_general_ci" }

/-- A column whose default value contains a single quote. -/
def colOBrien : ColumnDefinition :=
  { baseCol with
    Field := "name", TypeStr := "varchar(50)", Null := "YES"
    Default := some "O'Brien", originalField := "name" }

/-- A loaded, untouched `a : int NOT NULL` column (no edit). -/
def colA : ColumnDefinition :=
  { baseCol with Field := "a", TypeStr := "int", Null := "NO", originalField := "a" }

/-- The live row backing it. -/
def dbColA : DbColumn := { Field := "a" }

/-- A non-new column whose `originalField` has been cleared while its name
coincides with live column `a`. -/
def colAClearedOrig : ColumnDefinition :=
  { baseCol with Field := "a", TypeStr := "int", Null := "NO", originalField := "" }

/-- The current column of the C5 rename scenario: `a` renamed to `a2`. -/
def colA2 : ColumnDefinition :=
  { baseCol with Field := "a2", TypeStr := "int", Null := "NO", originalField := "a" }

/-- The untouched second column `b` of the C5 scenario. -/
def colB : ColumnDefinition :=
  { baseCol with Field := "b", TypeStr := "varchar(10)", originalField := "b" }

/-- Live row `b`. -/
def dbColB : DbColumn := { Field := "b" }

/-- An ordinary secondary index present in both snapshots. -/
def idxEmail : IndexDefinition :=
  { baseIdx with Key_name := "idx_email", Column_name := "email", IndexKind := "NORMAL" }

/-- An existing foreign key as originally loaded (`DELETE_RULE` RESTRICT). -/
def fkOrig : ForeignKeyDefinition :=
  { baseFk with
    CONSTRAINT_NAME := "fk_orders_user", COLUMN_NAME := "user_id"
    REFERENCED_TABLE_NAME := "users", REFERENCED_COLUMN_NAME := "id"
    UPDATE_RULE := "RESTRICT", DELETE_RULE := "RESTRICT", originalName := "fk_orders_user" }

/-- The same key after the user changed only its `DELETE_RULE`. -/
def fkEdited : ForeignKeyDefinition :=
  { fkOrig with DELETE_RULE := "CASCADE" }

/-- A fetched foreign-key row for the editor-invariant witness. -/
def rawFk : Editor.RawForeignKey :=
  { CONSTRAINT_NAME := "fk_orders_user", COLUMN_NAME := "user_id",
    REFERENCED_TABLE_NAME := "users", REFERENCED_COLUMN_NAME := "id",
    UPDATE_RULE := "RESTRICT", DELETE_RULE := "RESTRICT" : Editor.RawForeignKey }

/-- The loaded `fk_orders_user` row after the user deletes it in the
designer (marked, not removed). -/
def fkDeleted : ForeignKeyDefinition :=
  { baseFk with
    CONSTRAINT_NAME := "fk_orders_user", COLUMN_NAME := "user_id"
    REFERENCED_TABLE_NAME := "users", REFERENCED_COLUMN_NAME := "id"
    UPDATE_RULE := "RESTRICT", DELETE_RULE := "RESTRICT"
    isDeleted := true, originalName := "fk_orders_user" }

end Hamster.Fix

namespace Hamster

/-! ## Concrete evaluations (counterexamples and code-bug exhibits) -/

/-- Claim C2, counterexample: `buildColumnDef` (backend and preview alike)
interpolates a default value verbatim — a default of `O'Brien` is rendered
as `DEFAULT 'O'Brien'`, with the embedded quote *not* doubled, contrary to
the claimed `'O''Brien'` escaping. -/
theorem C2_counterexample :
    Db.buildColumnDef Fix.colOBrien = "`name` varchar(50) NULL DEFAULT 'O'Brien'"
    ∧ strIncludes (Db.buildColumnDef Fix.colOBrien) "O''Brien" = false
    ∧ Preview.buildColumnDef Fix.colOBrien = "`name` varchar(50) NULL DEFAULT 'O'Brien'" := by
  decide

/-- Claim C3 (code bug): for a new-table save with one non-deleted foreign
key, the statement `saveTableStructure` actually executes contains no
foreign-key clause at all (the `isNew` branch never reads `foreignKeys`),
while the SQL preview of the very same snapshot renders the
`CONSTRAINT … FOREIGN KEY` clause after columns and indexes. -/
theorem C3_create_table_fk_divergence :
    Db.createStatement "shop" "orders" [Fix.colIdNew] [Fix.idxPrimary]
        [Fix.fkOrdersUser] Fix.optsInnoDB
      = "CREATE TABLE `shop`.`orders` (\n  `id` int(11) NOT NULL auto_increment,\n  PRIMARY KEY (`id`)\n) ENGINE=InnoDB DEFAULT CHARSET=utf8mb4 COLLATE=utf8mb4_general_ci"
    ∧ strIncludes (Db.createStatement "shop" "orders" [Fix.colIdNew] [Fix.idxPrimary]
        [Fix.fkOrdersUser] Fix.optsInnoDB) "FOREIGN KEY" = false
    ∧ Preview.createSql "shop" "orders" [Fix.colIdNew] [Fix.idxPrimary]
        [Fix.fkOrdersUser] Fix.optsInnoDB
      = "CREATE TABLE `shop`.`orders` (\n  `id` int(11) NOT NULL AUTO_INCREMENT,\n  PRIMARY KEY (`id`),\n  CONSTRAINT `fk_orders_user` FOREIGN KEY (`user_id`) REFERENCES `users` (`id`) ON UPDATE RESTRICT ON DELETE CASCADE\n) ENGINE=InnoDB DEFAULT CHARSET=utf8mb4 COLLATE=utf8mb4_general_ci;" := by
  decide

/-- Claim C6, counterexample: a non-new column whose `originalField` was
cleared but whose `Field` coincides with a live column is *not* treated as
new — the backend falls back to matching by `Field`
(`col.originalField || col.Field`) and emits `MODIFY COLUMN`, with neither
the claimed `ADD COLUMN` nor the claimed `DROP COLUMN`. -/
theorem C6_counterexample :
    Db.alterClauses [Fix.colAClearedOrig] [Fix.dbColA] [] [] emptyOptions
        = ["MODIFY COLUMN `a` int NOT NULL"]
    ∧ ("ADD COLUMN " ++ Db.buildColumnDef Fix.colAClearedOrig)
        ∉ Db.alterClauses [Fix.colAClearedOrig] [Fix.dbColA] [] [] emptyOptions
    ∧ "DROP COLUMN `a`" ∉ Db.alterClauses [Fix.colAClearedOrig] [Fix.dbColA] [] [] emptyOptions := by
  decide

/-- Claim C1, counterexample: an existing-table save with no edits (the
current snapshot is the loaded snapshot) does *not* fail — the backend
unconditionally emits `MODIFY COLUMN` for every matched column, so a
statement is built and executed. -/
theorem C1_counterexample :
    Db.alterStatement "shop" "t" [Fix.colA] [Fix.dbColA] [] [] emptyOptions
      = some "ALTER TABLE `shop`.`t` MODIFY COLUMN `a` int NOT NULL" := by
  decide

/-- Claim C8, counterexample: a new-table save with no columns is not
rejected — `saveTableStructure` still builds (and executes) a `CREATE
TABLE` with an empty body. -/
theorem C8_counterexample :
    Db.createStatement "shop" "empty_t" [] [] [] emptyOptions
      = "CREATE TABLE `shop`.`empty_t` (\n\n) ENGINE=InnoDB DEFAULT CHARSET=utf8mb4 COLLATE=utf8mb4_general_ci" := by
  decide

end Hamster

namespace Hamster

theorem flatMap_nil_of_forall {α β : Type} {l : List α} {f : α → List β}
    (h : ∀ x ∈ l, f x = []) : l.flatMap f = [] := by
  induction l with
  | nil => rfl
  | cons a l ih =>
    simp only [List.flatMap_cons, h a (List.mem_cons_self a l),
      ih (fun x hx => h x (List.mem_cons_of_mem a hx)), List.nil_append]

theorem find?_self_of_nodup {α : Type} (key : α → String) (l : List α)
    (hnd : (l.map key).Nodup) (x : α) (hx : x ∈ l) :
    l.find? (fun y => key y == key x) = some x := by
  induction l with
  | nil => cases hx
  | cons a l ih =>
    rcases List.mem_cons.mp hx with rfl | hxl
    · simp [List.find?]
    · have hne : (key a == key x) = false := by
        rw [beq_eq_false_iff_ne]
        intro he
        have hm : key x ∈ l.map key := List.mem_map_of_mem key hxl
        rw [← he] at hm
        exact (List.nodup_cons.mp hnd).1 hm
      rw [List.find?_cons, hne]
      exact ih (List.nodup_cons.mp hnd).2 hxl

theorem mem_alterColPass_add (currentCols : List DbColumn) (cols : List ColumnDefinition)
    (col : ColumnDefinition) (hmem : col ∈ cols) (hnew : col.isNew = false)
    (hfind : currentCols.find? (fun c => c.Field == Db.matchKey col) = none) :
    ("ADD COLUMN " ++ Db.buildColumnDef col) ∈ (Db.alterColPass currentCols cols).1 := by
  induction cols with
  | nil => cases hmem
  | cons a l ih =>
    rcases List.mem_cons.mp hmem with rfl | hl
    · simp only [Db.alterColPass, hnew, Bool.false_eq_true, if_false, hfind]
      exact List.mem_cons_self _ _
    · have htail := ih hl
      simp only [Db.alterColPass]
      by_cases ha : a.isNew
      · simp only [ha, if_true]
        exact List.mem_cons_of_mem _ htail
      · simp only [ha, if_false]
        cases hfa : currentCols.find? (fun c => c.Field == Db.matchKey a) with
        | none => exact List.mem_cons_of_mem _ htail
        | some cur => exact List.mem_cons_of_mem _ htail

end Hamster

namespace Hamster

theorem mem_alterColPass_matched (currentCols : List DbColumn) (cols : List ColumnDefinition)
    (col : ColumnDefinition) (cur : DbColumn) (hmem : col ∈ cols) (hnew : col.isNew = false)
    (hfind : currentCols.find? (fun c => c.Field == Db.matchKey col) = some cur) :
    (if col.Field ≠ cur.Field then
        "CHANGE COLUMN `" ++ cur.Field ++ "` " ++ Db.buildColumnDef col
      else "MODIFY COLUMN " ++ Db.buildColumnDef col)
      ∈ (Db.alterColPass currentCols cols).1 := by
  induction cols with
  | nil => cases hmem
  | cons a l ih =>
    rcases List.mem_cons.mp hmem with rfl | hl
    · simp only [Db.alterColPass, hnew, Bool.false_eq_true, if_false, hfind]
      exact List.mem_cons_self _ _
    · have htail := ih hl
      simp only [Db.alterColPass]
      by_cases ha : a.isNew
      · simp only [ha, if_true]
        exact List.mem_cons_of_mem _ htail
      · simp only [ha, if_false]
        cases hfa : currentCols.find? (fun c => c.Field == Db.matchKey a) with
        | none => exact List.mem_cons_of_mem _ htail
        | some cur2 => exact List.mem_cons_of_mem _ htail

theorem alterColPass_processed_spec (currentCols : List DbColumn) (cols : List ColumnDefinition) :
    ∀ n ∈ (Db.alterColPass currentCols cols).2,
      ∃ col ∈ cols, col.isNew = false ∧ Db.matchKey col = n := by
  induction cols with
  | nil => intro n hn; cases hn
  | cons a l ih =>
    intro n hn
    simp only [Db.alterColPass] at hn
    by_cases ha : a.isNew
    · simp only [ha, if_true] at hn
      obtain ⟨col, hc, h1, h2⟩ := ih n hn
      exact ⟨col, List.mem_cons_of_mem a hc, h1, h2⟩
    · simp only [ha, if_false] at hn
      cases hfa : currentCols.find? (fun c => c.Field == Db.matchKey a) with
      | none =>
        rw [hfa] at hn
        obtain ⟨col, hc, h1, h2⟩ := ih n hn
        exact ⟨col, List.mem_cons_of_mem a hc, h1, h2⟩
      | some cur =>
        rw [hfa] at hn
        rcases List.mem_cons.mp hn with rfl | hn2
        · refine ⟨a, List.mem_cons_self a l, by simpa using ha, ?_⟩
          have := List.find?_some hfa
          exact (beq_iff_eq.mp this).symm
        · obtain ⟨col, hc, h1, h2⟩ := ih _ hn2
          exact ⟨col, List.mem_cons_of_mem a hc, h1, h2⟩

end Hamster

namespace Hamster

/-- Claim C6 (amended): in the existing-table diff a non-new column is
matched against the live columns by `originalField` *or, when that is
cleared, by its current `Field`* (`col.originalField || col.Field`); only
when that key matches no live column does it become `ADD COLUMN`, a
matched column becomes `CHANGE`/`MODIFY`, and a live column matched by no
current column's key becomes `DROP COLUMN`. -/
theorem C6_column_matching_amended (columns : List ColumnDefinition) (currentCols : List DbColumn)
    (indexes currentIndexes : List IndexDefinition) (options : TableOptions) :
    (∀ col ∈ columns, col.isNew = false →
      (currentCols.find? (fun c => c.Field == Db.matchKey col) = none →
        ("ADD COLUMN " ++ Db.buildColumnDef col)
          ∈ Db.alterClauses columns currentCols indexes currentIndexes options)
      ∧ (∀ cur, currentCols.find? (fun c => c.Field == Db.matchKey col) = some cur →
          (if col.Field ≠ cur.Field then
              "CHANGE COLUMN `" ++ cur.Field ++ "` " ++ Db.buildColumnDef col
            else "MODIFY COLUMN " ++ Db.buildColumnDef col)
            ∈ Db.alterClauses columns currentCols indexes currentIndexes options))
    ∧ (∀ cur ∈ currentCols,
        (∀ col ∈ columns, col.isNew = false → Db.matchKey col ≠ cur.Field) →
        ("DROP COLUMN `" ++ cur.Field ++ "`")
          ∈ Db.alterClauses columns currentCols indexes currentIndexes options) := by
  constructor
  · intro col hmem hnew
    constructor
    · intro hfind
      have h := mem_alterColPass_add currentCols columns col hmem hnew hfind
      simp only [Db.alterClauses]
      exact List.mem_append_left _ (List.mem_append_left _ (List.mem_append_left _
        (List.mem_append_left _ h)))
    · intro cur hfind
      have h := mem_alterColPass_matched currentCols columns col cur hmem hnew hfind
      simp only [Db.alterClauses]
      exact List.mem_append_left _ (List.mem_append_left _ (List.mem_append_left _
        (List.mem_append_left _ h)))
  · intro cur hcur hnone
    have hnp : cur.Field ∉ (Db.alterColPass currentCols columns).2 := by
      intro hmem
      obtain ⟨col, hc, h1, h2⟩ := alterColPass_processed_spec currentCols columns _ hmem
      exact hnone col hc h1 h2
    have hdrop : ("DROP COLUMN `" ++ cur.Field ++ "`")
        ∈ Db.dropColClauses currentCols (Db.alterColPass currentCols columns).2 := by
      apply List.mem_map_of_mem
      rw [List.mem_filter]
      refine ⟨hcur, ?_⟩
      simp only [Bool.not_eq_true']
      simpa using hnp
    simp only [Db.alterClauses]
    exact List.mem_append_left _ (List.mem_append_left _ (List.mem_append_left _
      (List.mem_append_right _ hdrop)))

end Hamster

namespace Hamster

/-- Claim C4: on an existing-table save, every index key-name present in
both the live schema and the edited snapshot is unconditionally dropped
(`DROP PRIMARY KEY` for `PRIMARY`, else ``DROP INDEX `name` ``) and
re-added with its current definition in the same clause list — the drop
loop emits the same drop on both branches of its `if`. -/
theorem C4_indexes_dropped_and_readded (columns : List ColumnDefinition) (currentCols : List DbColumn)
    (indexes currentIndexes : List IndexDefinition) (options : TableOptions)
    (k : String) (parts : List IndexDefinition)
    (hold : k ∈ (Db.groupIndexes currentIndexes).map Prod.fst)
    (hnew : (k, parts) ∈ Db.groupIndexes indexes) :
    Db.dropIndexClause k
        ∈ Db.idxDropClauses (Db.groupIndexes currentIndexes) (Db.groupIndexes indexes)
    ∧ ("ADD " ++ Db.buildIndexDef k parts) ∈ Db.idxAddClauses (Db.groupIndexes indexes)
    ∧ Db.dropIndexClause k ∈ Db.alterClauses columns currentCols indexes currentIndexes options
    ∧ ("ADD " ++ Db.buildIndexDef k parts)
        ∈ Db.alterClauses columns currentCols indexes currentIndexes options := by
  obtain ⟨g, hg, hgk⟩ := List.mem_map.mp hold
  have hdrop : Db.dropIndexClause k
      ∈ Db.idxDropClauses (Db.groupIndexes currentIndexes) (Db.groupIndexes indexes) := by
    unfold Db.idxDropClauses
    simp only [ite_self]
    exact List.mem_map.mpr ⟨g, hg, by rw [hgk]⟩
  have hadd : ("ADD " ++ Db.buildIndexDef k parts) ∈ Db.idxAddClauses (Db.groupIndexes indexes) := by
    unfold Db.idxAddClauses
    exact List.mem_map.mpr ⟨(k, parts), hnew, rfl⟩
  refine ⟨hdrop, hadd, ?_, ?_⟩
  · simp only [Db.alterClauses]
    exact List.mem_append_left _ (List.mem_append_left _
      (List.mem_append_right _ hdrop))
  · simp only [Db.alterClauses]
    exact List.mem_append_left _ (List.mem_append_right _ hadd)

end Hamster

namespace Hamster

/-- Claim C5: renaming column `a` to `a2` (with `originalField` intact)
while column `b` is untouched yields exactly a ``CHANGE COLUMN `a` `a2` …``
clause plus the unconditional `MODIFY` of `b` — in particular neither a
``DROP COLUMN `a` `` nor an ``ADD COLUMN `a2` `` clause is emitted. -/
theorem C5_rename_emits_change (colA2 colB : ColumnDefinition) (rawA rawB : DbColumn)
    (h1 : colA2.isNew = false) (h2 : colA2.originalField = "a") (h3 : colA2.Field = "a2")
    (h4 : colB.isNew = false) (h5 : colB.originalField = "b") (h6 : colB.Field = "b")
    (h7 : rawA.Field = "a") (h8 : rawB.Field = "b") :
    ∃ rest, Db.buildColumnDef colA2 = "`a2` " ++ rest
      ∧ Db.alterClauses [colA2, colB] [rawA, rawB] [] [] emptyOptions
        = ["CHANGE COLUMN `a` " ++ Db.buildColumnDef colA2,
           "MODIFY COLUMN " ++ Db.buildColumnDef colB] := by
  refine ⟨colA2.TypeStr ++ Db.unsignedPart colA2 ++ Db.zerofillPart colA2
    ++ Db.charsetPart colA2 ++ Db.collationPart colA2 ++ Db.nullPart colA2
    ++ Db.defaultPart colA2 ++ Db.extraPart colA2 ++ Db.commentPart colA2, ?_, ?_⟩
  · simp only [Db.buildColumnDef, h3, String.append_assoc]
    rw [← String.append_assoc "`" "a2" _, ← String.append_assoc ("`" ++ "a2") "` " _]
    rfl
  · simp only [Db.alterClauses, Db.alterColPass, Db.matchKey, h1, h2, h3, h4, h5, h6, h7, h8,
      Db.dropColClauses, Db.groupIndexes, Db.idxDropClauses, Db.idxAddClauses,
      Db.optionFragments, emptyOptions, List.find?]
    simp [h7, h8]

end Hamster

namespace Hamster

theorem colClauses_no_edit (cols : List ColumnDefinition)
    (h1 : ∀ c ∈ cols, c.isNew = false ∧ c.originalField = c.Field)
    (h2 : (cols.map (fun c => c.Field)).Nodup) :
    Preview.colClauses cols cols = [] := by
  unfold Preview.colClauses
  have hadds : cols.filter (fun c => c.isNew) = [] := by
    rw [List.filter_eq_nil_iff]
    intro c hc
    simp [(h1 c hc).1]
  have hmods : (cols.filter (fun c =>
      !c.isNew && c.originalField ≠ "" && (Preview.originalColNames cols).contains c.originalField)).flatMap
      (fun col =>
        match cols.find? (fun o => o.Field == col.originalField) with
        | some orig =>
          if col.Field ≠ orig.Field then
            ["CHANGE COLUMN `" ++ orig.Field ++ "` " ++ Preview.buildColumnDef col]
          else if Preview.colChanged col orig then
            ["MODIFY COLUMN " ++ Preview.buildColumnDef col]
          else []
        | none => []) = [] := by
    apply flatMap_nil_of_forall
    intro c hc
    have hcm : c ∈ cols := (List.mem_filter.mp hc).1
    have hfind : cols.find? (fun o => o.Field == c.originalField) = some c := by
      rw [(h1 c hcm).2]
      exact find?_self_of_nodup (fun c => c.Field) cols h2 c hcm
    rw [hfind]
    simp [Preview.colChanged]
  have hdrops : cols.filter (fun orig =>
      !(cols.any (fun c => c.originalField == orig.Field || c.Field == orig.Field))) = [] := by
    rw [List.filter_eq_nil_iff]
    intro orig horig
    simp only [Bool.not_eq_true', Bool.not_eq_false]
    rw [List.any_eq_true]
    exact ⟨orig, horig, by simp⟩
  rw [hadds, hmods, hdrops]
  simp

theorem idxClauses_refl (idxs : List IndexDefinition) :
    Preview.idxClauses idxs idxs = [] := by
  unfold Preview.idxClauses
  have h : idxs.filter (fun idx => !((idxs.map (fun i => i.Key_name)).contains idx.Key_name)) = [] := by
    rw [List.filter_eq_nil_iff]
    intro idx hidx
    simp only [Bool.not_eq_true', Bool.not_eq_false]
    exact List.elem_eq_true_of_mem (List.mem_map_of_mem _ hidx)
  rw [h]
  simp

theorem fkClauses_no_edit (fks : List ForeignKeyDefinition)
    (h : ∀ fk ∈ fks, fk.isNew = false ∧ fk.isDeleted = false
      ∧ fk.originalName = fk.CONSTRAINT_NAME)
    (hnd : (fks.map (fun fk => fk.CONSTRAINT_NAME)).Nodup) :
    Preview.fkClauses fks fks = [] := by
  unfold Preview.fkClauses
  have hdel : fks.filter (fun fk => fk.isDeleted && fk.originalName ≠ "") = [] := by
    rw [List.filter_eq_nil_iff]
    intro fk hfk
    simp [(h fk hfk).2.1]
  have hnew : fks.filter (fun fk => fk.isNew && !fk.isDeleted) = [] := by
    rw [List.filter_eq_nil_iff]
    intro fk hfk
    simp [(h fk hfk).1]
  have hmod : (fks.filter (fun fk => !fk.isNew && !fk.isDeleted && fk.originalName ≠ "")).flatMap
      (fun fk =>
        match fks.find? (fun o => o.CONSTRAINT_NAME == fk.originalName) with
        | some orig =>
          if Preview.fkChanged fk orig then
            ["DROP FOREIGN KEY `" ++ fk.originalName ++ "`", "ADD " ++ Preview.buildFkDef fk]
          else []
        | none => []) = [] := by
    apply flatMap_nil_of_forall
    intro fk hfk
    have hm : fk ∈ fks := (List.mem_filter.mp hfk).1
    have hfind : fks.find? (fun o => o.CONSTRAINT_NAME == fk.originalName) = some fk := by
      rw [(h fk hm).2.2]
      exact find?_self_of_nodup (fun fk => fk.CONSTRAINT_NAME) fks hnd fk hm
    rw [hfind]
    simp [Preview.fkChanged]
  rw [hdel, hnew, hmod]
  simp

theorem optionChanges_refl (opts : TableOptions) : Preview.optionChanges opts opts = [] := by
  simp [Preview.optionChanges]

end Hamster

namespace Hamster

/-- Claim C1 (amended): there is no `ValidationError` anywhere.  For a
no-edit state the *preview* reports `-- No changes detected` (its clause
list diffs to empty); the backend `saveTableStructure` skips execution
silently exactly when its clause list is empty, but on a no-edit save of a
table with columns its clause list is *not* empty (unconditional
`MODIFY COLUMN`), so a statement is sent to the database. -/
theorem C1_noop_save_amended (columns : List ColumnDefinition) (indexes : List IndexDefinition)
    (fks : List ForeignKeyDefinition) (options : TableOptions) (database tableName : String)
    (hcols : ∀ c ∈ columns, c.isNew = false ∧ c.originalField = c.Field)
    (hnodup : (columns.map (fun c => c.Field)).Nodup)
    (hfks : ∀ fk ∈ fks, fk.isNew = false ∧ fk.isDeleted = false
      ∧ fk.originalName = fk.CONSTRAINT_NAME)
    (hfknodup : (fks.map (fun fk => fk.CONSTRAINT_NAME)).Nodup) :
    Preview.alterSql database tableName columns columns indexes indexes fks fks options options
        = "-- No changes detected"
    ∧ (∀ db t cols cur idx cidx o,
        Db.alterStatement db t cols cur idx cidx o = none
          ↔ Db.alterClauses cols cur idx cidx o = [])
    ∧ Db.alterClauses [Fix.colA] [Fix.dbColA] [] [] emptyOptions
        = ["MODIFY COLUMN `a` int NOT NULL"] := by
  refine ⟨?_, ?_, by decide⟩
  · unfold Preview.alterSql Preview.alterClauses
    rw [colClauses_no_edit columns hcols hnodup, idxClauses_refl,
      fkClauses_no_edit fks hfks hfknodup, optionChanges_refl]
    simp
  · intro db t cols cur idx cidx o
    unfold Db.alterStatement
    cases h : Db.alterClauses cols cur idx cidx o with
    | nil => simp [h]
    | cons a l => simp [h]

/-- Claim C7 (code bug): the preview emits, for an existing unmarked
foreign key whose `DELETE_RULE` alone changed, exactly one
`DROP FOREIGN KEY` of the original name and one `ADD CONSTRAINT … ON
DELETE <new rule>` — but the backend save never emits any foreign-key
clause (its ALTER branch ignores the `foreignKeys` argument entirely), so
the executed statement contains none. -/
theorem C7_fk_modify_divergence (fk ofk : ForeignKeyDefinition)
    (h1 : fk.isNew = false) (h2 : fk.isDeleted = false)
    (h3 : fk.originalName = ofk.CONSTRAINT_NAME) (h4 : ofk.CONSTRAINT_NAME ≠ "")
    (h5 : fk.COLUMN_NAME = ofk.COLUMN_NAME)
    (h6 : fk.REFERENCED_TABLE_NAME = ofk.REFERENCED_TABLE_NAME)
    (h7 : fk.REFERENCED_COLUMN_NAME = ofk.REFERENCED_COLUMN_NAME)
    (h8 : fk.UPDATE_RULE = ofk.UPDATE_RULE)
    (h9 : fk.DELETE_RULE ≠ ofk.DELETE_RULE) :
    Preview.fkClauses [fk] [ofk]
      = ["DROP FOREIGN KEY `" ++ ofk.CONSTRAINT_NAME ++ "`", "ADD " ++ Preview.buildFkDef fk]
    ∧ (∃ pre, Preview.buildFkDef fk = pre ++ " ON DELETE " ++ orDefault fk.DELETE_RULE "RESTRICT")
    ∧ (∀ c ∈ Db.alterClauses [Fix.colA] [Fix.dbColA] [] [] emptyOptions,
        strIncludes c "FOREIGN KEY" = false) := by
  refine ⟨?_, ?_, by decide⟩
  · unfold Preview.fkClauses
    simp only [List.filter_cons, h1, h2, h3, h4]
    simp [h3, h4, Preview.fkChanged, h5, h6, h7, h8, h9]
  · exact ⟨"CONSTRAINT `" ++ fk.CONSTRAINT_NAME ++ "` FOREIGN KEY (`" ++ fk.COLUMN_NAME
      ++ "`) REFERENCES `" ++ fk.REFERENCED_TABLE_NAME ++ "` (`" ++ fk.REFERENCED_COLUMN_NAME
      ++ "`) ON UPDATE " ++ orDefault fk.UPDATE_RULE "RESTRICT", rfl⟩

end Hamster

namespace Hamster

theorem mem_updateAt {α : Type} (i : Nat) (g : α → α) (l : List α) (z : α)
    (hz : z ∈ Editor.updateAt i g l) :
    z ∈ l ∨ ∃ w, l.get? i = some w ∧ z = g w := by
  induction l generalizing i with
  | nil => simp [Editor.updateAt] at hz
  | cons a t ih =>
    cases i with
    | zero =>
      simp only [Editor.updateAt] at hz
      rcases List.mem_cons.mp hz with rfl | hzt
      · exact Or.inr ⟨a, rfl, rfl⟩
      · exact Or.inl (List.mem_cons_of_mem _ hzt)
    | succ n =>
      simp only [Editor.updateAt] at hz
      rcases List.mem_cons.mp hz with rfl | hzt
      · exact Or.inl (List.mem_cons_self _ _)
      · rcases ih n hzt with hmem | ⟨w, hw, hzw⟩
        · exact Or.inl (List.mem_cons_of_mem _ hmem)
        · exact Or.inr ⟨w, by simpa using hw, hzw⟩

theorem fkInv_step (l : List ForeignKeyDefinition) (op : Editor.FkOp)
    (h : ∀ fk ∈ l, (fk.isNew = false → fk.originalName ≠ "")
      ∧ (fk.isDeleted = true → fk.isNew = false)) :
    ∀ fk ∈ Editor.applyFkOp l op,
      (fk.isNew = false → fk.originalName ≠ "") ∧ (fk.isDeleted = true → fk.isNew = false) := by
  cases op with
  | addFk name colName refTable =>
    intro fk hfk
    rcases List.mem_append.mp hfk with hl | hr
    · exact h fk hl
    · simp only [List.mem_singleton] at hr
      subst hr
      simp [Editor.newForeignKey]
  | updateFk i field value =>
    intro fk hfk
    rcases mem_updateAt _ _ _ _ hfk with hl | ⟨w, hw, rfl⟩
    · exact h fk hl
    · have hp := h w (List.get?_mem hw)
      cases field <;> simpa [Editor.updateFkField] using hp
  | deleteFk i =>
    intro fk hfk
    simp only [Editor.applyFkOp] at hfk
    cases hg : l.get? i with
    | none => rw [hg] at hfk; exact h fk hfk
    | some w =>
      rw [hg] at hfk
      by_cases hw : w.isNew
      · simp only [hw, if_true] at hfk
        exact h fk ((List.eraseIdx_sublist l i).subset hfk)
      · simp only [hw, if_false] at hfk
        rcases mem_updateAt _ _ _ _ hfk with hl | ⟨w2, hw2, rfl⟩
        · exact h fk hl
        · have hww : w2 = w := by rw [hg] at hw2; exact (Option.some.inj hw2).symm
          subst hww
          have hp := h w2 (List.get?_mem hg)
          refine ⟨fun _ => hp.1 ?_, fun _ => ?_⟩
          · exact Bool.not_eq_true _ ▸ by simpa using hw
          · simpa using (Bool.not_eq_true w2.isNew).mp hw

theorem fkInv_ops (ops : List Editor.FkOp) :
    ∀ (l : List ForeignKeyDefinition),
      (∀ fk ∈ l, (fk.isNew = false → fk.originalName ≠ "")
        ∧ (fk.isDeleted = true → fk.isNew = false)) →
      ∀ fk ∈ Editor.applyFkOps l ops,
        (fk.isNew = false → fk.originalName ≠ "") ∧ (fk.isDeleted = true → fk.isNew = false) := by
  induction ops with
  | nil => intro l h; exact h
  | cons op ops ih =>
    intro l h
    exact ih _ (fkInv_step l op h)

theorem fkInv_load (raws : List Editor.RawForeignKey)
    (h : ∀ r ∈ raws, r.CONSTRAINT_NAME ≠ "") :
    ∀ fk ∈ Editor.loadForeignKeys raws,
      (fk.isNew = false → fk.originalName ≠ "") ∧ (fk.isDeleted = true → fk.isNew = false) := by
  intro fk hfk
  obtain ⟨r, hr, rfl⟩ := List.mem_map.mp hfk
  exact ⟨fun _ => h r hr, fun hd => by simp at hd⟩

/-- Claim C10: after loading a snapshot whose fetched constraint names are
non-empty, every sequence of designer foreign-key operations preserves the
invariant that an `isDeleted` entry is non-new and carries a non-empty
`originalName`; consequently every user-deleted constraint passes the
synthesizer's drop filter and contributes its `DROP FOREIGN KEY` clause. -/
theorem C10_fk_delete_invariant (raws : List Editor.RawForeignKey) (ops : List Editor.FkOp)
    (h : ∀ r ∈ raws, r.CONSTRAINT_NAME ≠ "") :
    ∀ fk ∈ Editor.applyFkOps (Editor.loadForeignKeys raws) ops, fk.isDeleted = true →
      fk.isNew = false ∧ fk.originalName ≠ ""
      ∧ ∀ origFks, ("DROP FOREIGN KEY `" ++ fk.originalName ++ "`")
          ∈ Preview.fkClauses (Editor.applyFkOps (Editor.loadForeignKeys raws) ops) origFks := by
  intro fk hfk hdel
  have hinv := fkInv_ops ops (Editor.loadForeignKeys raws) (fkInv_load raws h) fk hfk
  have hnew : fk.isNew = false := hinv.2 hdel
  have horig : fk.originalName ≠ "" := hinv.1 hnew
  refine ⟨hnew, horig, fun origFks => ?_⟩
  unfold Preview.fkClauses
  apply List.mem_append_left
  apply List.mem_append_left
  apply List.mem_map_of_mem
  rw [List.mem_filter]
  exact ⟨hfk, by simp [hdel, horig]⟩

end Hamster

namespace Hamster.TypeDesc

open Hamster

theorem takeWord_append (w rest : List Char) (hw : ∀ c ∈ w, isWordChar c = true)
    (hrest : ∀ c, rest.head? = some c → isWordChar c = false) :
    takeWord (w ++ rest) = (w, rest) := by
  induction w with
  | nil =>
    cases rest with
    | nil => rfl
    | cons c cs =>
      have hc := hrest c rfl
      simp [takeWord, hc]
  | cons c w ih =>
    have hc := hw c (List.mem_cons_self c w)
    simp [takeWord, hc, ih (fun x hx => hw x (List.mem_cons_of_mem _ hx))]

theorem splitsAtRParen_eq_nil (ys : List Char) (h : ')' ∉ ys) : splitsAtRParen ys = [] := by
  induction ys with
  | nil => rfl
  | cons c cs ih =>
    have hc : ¬(c = ')') := fun he => h (he ▸ List.mem_cons_self c cs)
    simp [splitsAtRParen, hc, ih (fun hm => h (List.mem_cons_of_mem _ hm))]

theorem splitsAtRParen_last (xs ys : List Char) (h : ')' ∉ ys) :
    ∃ Z, splitsAtRParen (xs ++ ')' :: ys) = Z ++ [(xs, ys)] := by
  induction xs with
  | nil =>
    refine ⟨[], ?_⟩
    simp [splitsAtRParen, splitsAtRParen_eq_nil ys h]
  | cons x xs ih =>
    obtain ⟨Z, hZ⟩ := ih
    refine ⟨(if x = ')' then [(([] : List Char), xs ++ ')' :: ys)] else [])
      ++ Z.map (fun s => (x :: s.1, s.2)), ?_⟩
    simp only [List.cons_append, splitsAtRParen]
    rw [show xs.append (')' :: ys) = xs ++ ')' :: ys from rfl, hZ]
    simp [List.map_append, List.append_assoc]

theorem greedyParen_eq (xs ys : List Char) (r : List Char × Option (List Char))
    (h : ')' ∉ ys) (hck : checkTail xs ys = some r) :
    greedyParen (xs ++ ')' :: ys) = some r := by
  obtain ⟨Z, hZ⟩ := splitsAtRParen_last xs ys h
  unfold greedyParen
  rw [hZ, List.reverse_append]
  simp [List.filterMap_cons, hck]

end Hamster.TypeDesc

namespace Hamster.TypeDesc

open Hamster

theorem matchType_paren (tD lD tail : List Char) (eOpt : Option (List Char))
    (ht1 : tD ≠ []) (ht2 : ∀ c ∈ tD, isWordChar c = true)
    (hck : checkTail lD tail = some (lD, eOpt)) (hnp : ')' ∉ tail) :
    matchType (tD ++ '(' :: (lD ++ ')' :: tail)) = some (tD, some lD, eOpt) := by
  unfold matchType
  have hside : ∀ c, ('(' :: (lD ++ ')' :: tail)).head? = some c → isWordChar c = false := by
    intro c hc; cases Option.some.inj hc; decide
  rw [takeWord_append tD ('(' :: (lD ++ ')' :: tail)) ht2 hside]
  simp only [ht1, if_false]
  rw [greedyParen_eq lD tail (lD, eOpt) hnp hck]

theorem matchType_word_only (tD : List Char)
    (ht1 : tD ≠ []) (ht2 : ∀ c ∈ tD, isWordChar c = true) :
    matchType tD = some (tD, none, none) := by
  unfold matchType
  have h := takeWord_append tD [] ht2 (by intro c hc; cases hc)
  rw [List.append_nil] at h
  rw [h]
  simp [ht1]

theorem matchType_word_suffix (tD e : List Char)
    (ht1 : tD ≠ []) (ht2 : ∀ c ∈ tD, isWordChar c = true)
    (he : e ≠ []) (hne : noNL e = true) :
    matchType (tD ++ ' ' :: e) = some (tD, none, some e) := by
  unfold matchType
  have hside : ∀ c, (' ' :: e).head? = some c → isWordChar c = false := by
    intro c hc; cases Option.some.inj hc; decide
  rw [takeWord_append tD (' ' :: e) ht2 hside]
  simp [ht1, he, hne]

theorem data_ne_nil_of_ne_empty (s : String) (h : s ≠ "") : s.data ≠ [] := by
  intro hd
  exact h (String.ext (by rw [hd]))

end Hamster.TypeDesc

namespace Hamster.TypeDesc

open Hamster

theorem composeType_data_paren (t l : String) (u z : Bool) (hl0 : l ≠ "") :
    (composeType t l u z).data
      = t.data ++ '(' :: (l.data ++ ')' ::
          ((if u then " unsigned" else "").data ++ (if z then " zerofill" else "").data)) := by
  cases u <;> cases z <;>
    simp [composeType, hl0, String.data_append, List.append_assoc,
      show ("(" : String).data = ['('] from rfl,
      show (")" : String).data = [')'] from rfl,
      show ("" : String).data = [] from rfl]

theorem composeType_data_word (t l : String) (u z : Bool) (hl0 : l = "") :
    (composeType t l u z).data
      = t.data ++ ((if u then " unsigned" else "").data ++ (if z then " zerofill" else "").data) := by
  subst hl0
  cases u <;> cases z <;>
    simp [composeType, String.data_append, List.append_assoc,
      show ("" : String).data = [] from rfl]

end Hamster.TypeDesc

namespace Hamster

/-- Claim C9: the type round-trip.  For every base type that is a
non-empty `\w+` word, every newline-free length spec and both flags,
composing the raw type string and parsing it back returns the original
tuple (an empty length spec comes back as the empty string, the modelling
of the regex group that did not participate). -/
theorem C9_type_roundtrip (t l : String) (u z : Bool)
    (ht1 : t.data ≠ []) (ht2 : ∀ c ∈ t.data, TypeDesc.isWordChar c = true)
    (hl : noNL l.data = true) :
    (TypeDesc.parseType (TypeDesc.composeType t l u z)).type = t
    ∧ (TypeDesc.parseType (TypeDesc.composeType t l u z)).length = l
    ∧ (TypeDesc.parseType (TypeDesc.composeType t l u z)).unsigned = u
    ∧ (TypeDesc.parseType (TypeDesc.composeType t l u z)).zerofill = z := by
  by_cases hl0 : l = ""
  · subst hl0
    have hdata := TypeDesc.composeType_data_word t "" u z rfl
    cases u <;> cases z
    · have hm : TypeDesc.matchType (TypeDesc.composeType t "" false false).data
          = some (t.data, none, none) := by
        rw [hdata]
        simpa using TypeDesc.matchType_word_only t.data ht1 ht2
      refine ⟨?_, ?_, ?_, ?_⟩ <;> simp [TypeDesc.parseType, hm] <;> decide
    · have hm : TypeDesc.matchType (TypeDesc.composeType t "" false true).data
          = some (t.data, none, some "zerofill".data) := by
        rw [hdata]
        simpa using TypeDesc.matchType_word_suffix t.data "zerofill".data ht1 ht2
          (by decide) (by decide)
      refine ⟨?_, ?_, ?_, ?_⟩ <;> simp [TypeDesc.parseType, hm] <;> decide
    · have hm : TypeDesc.matchType (TypeDesc.composeType t "" true false).data
          = some (t.data, none, some "unsigned".data) := by
        rw [hdata]
        simpa using TypeDesc.matchType_word_suffix t.data "unsigned".data ht1 ht2
          (by decide) (by decide)
      refine ⟨?_, ?_, ?_, ?_⟩ <;> simp [TypeDesc.parseType, hm] <;> decide
    · have hm : TypeDesc.matchType (TypeDesc.composeType t "" true true).data
          = some (t.data, none, some "unsigned zerofill".data) := by
        rw [hdata]
        have h2 := TypeDesc.matchType_word_suffix t.data "unsigned zerofill".data ht1 ht2
          (by decide) (by decide)
        simpa using h2
      refine ⟨?_, ?_, ?_, ?_⟩ <;> simp [TypeDesc.parseType, hm] <;> decide
  · have hlD : l.data ≠ [] := TypeDesc.data_ne_nil_of_ne_empty l hl0
    have hdata := TypeDesc.composeType_data_paren t l u z hl0
    cases u <;> cases z
    · have hck : TypeDesc.checkTail l.data [] = some (l.data, none) := by
        simp [TypeDesc.checkTail, hlD, hl]
      have hm : TypeDesc.matchType (TypeDesc.composeType t l false false).data
          = some (t.data, some l.data, none) := by
        rw [hdata]
        simpa using TypeDesc.matchType_paren t.data l.data [] none ht1 ht2 hck (by decide)
      refine ⟨?_, ?_, ?_, ?_⟩ <;> simp [TypeDesc.parseType, hm] <;> decide
    · have hck : TypeDesc.checkTail l.data (' ' :: "zerofill".data)
          = some (l.data, some "zerofill".data) := by
        simp [TypeDesc.checkTail, hlD, hl]
        decide
      have hm : TypeDesc.matchType (TypeDesc.composeType t l false true).data
          = some (t.data, some l.data, some "zerofill".data) := by
        rw [hdata]
        simpa using TypeDesc.matchType_paren t.data l.data (' ' :: "zerofill".data)
          (some "zerofill".data) ht1 ht2 hck (by decide)
      refine ⟨?_, ?_, ?_, ?_⟩ <;> simp [TypeDesc.parseType, hm] <;> decide
    · have hck : TypeDesc.checkTail l.data (' ' :: "unsigned".data)
          = some (l.data, some "unsigned".data) := by
        simp [TypeDesc.checkTail, hlD, hl]
        decide
      have hm : TypeDesc.matchType (TypeDesc.composeType t l true false).data
          = some (t.data, some l.data, some "unsigned".data) := by
        rw [hdata]
        simpa using TypeDesc.matchType_paren t.data l.data (' ' :: "unsigned".data)
          (some "unsigned".data) ht1 ht2 hck (by decide)
      refine ⟨?_, ?_, ?_, ?_⟩ <;> simp [TypeDesc.parseType, hm] <;> decide
    · have hck : TypeDesc.checkTail l.data (' ' :: "unsigned zerofill".data)
          = some (l.data, some "unsigned zerofill".data) := by
        simp [TypeDesc.checkTail, hlD, hl]
        decide
      have hm : TypeDesc.matchType (TypeDesc.composeType t l true true).data
          = some (t.data, some l.data, some "unsigned zerofill".data) := by
        rw [hdata]
        have h2 := TypeDesc.matchType_paren t.data l.data (' ' :: "unsigned zerofill".data)
          (some "unsigned zerofill".data) ht1 ht2 hck (by decide)
        simpa using h2
      refine ⟨?_, ?_, ?_, ?_⟩ <;> simp [TypeDesc.parseType, hm] <;> decide

end Hamster

namespace Hamster

/-- Claim C2 (amended): the `DEFAULT` rendering of `buildColumnDef`
(backend, and preview where stated): a non-empty, non-sentinel default is
interpolated *verbatim* between single quotes — no quote doubling, no
backslash escaping; `CURRENT_TIMESTAMP` and `NULL` are emitted as bare
keywords; a `null` default on a nullable column yields `DEFAULT NULL`; an
*empty-string* default yields no `DEFAULT` clause in the backend while the
preview still emits `DEFAULT NULL` for it on a nullable column.  The last
conjunct places the fragment inside the rendered column definition. -/
theorem C2_default_rendering_amended (col : ColumnDefinition) :
    (∀ d, col.Default = some d → d ≠ "" → d ≠ "CURRENT_TIMESTAMP" → d ≠ "NULL" →
        Db.defaultPart col = " DEFAULT '" ++ d ++ "'"
        ∧ Preview.defaultPart col = " DEFAULT '" ++ d ++ "'")
    ∧ (col.Default = some "CURRENT_TIMESTAMP" →
        Db.defaultPart col = " DEFAULT CURRENT_TIMESTAMP"
        ∧ Preview.defaultPart col = " DEFAULT CURRENT_TIMESTAMP")
    ∧ (col.Default = none → col.Null = "YES" → Db.defaultPart col = " DEFAULT NULL")
    ∧ (col.Default = some "" → Db.defaultPart col = ""
        ∧ (col.Null = "YES" → Preview.defaultPart col = " DEFAULT NULL"))
    ∧ Db.buildColumnDef col
        = "`" ++ col.Field ++ "` " ++ col.TypeStr ++ Db.unsignedPart col ++ Db.zerofillPart col
          ++ Db.charsetPart col ++ Db.collationPart col ++ Db.nullPart col ++ Db.defaultPart col
          ++ Db.extraPart col ++ Db.commentPart col := by
  refine ⟨?_, ?_, ?_, ?_, rfl⟩
  · intro d hd h1 h2 h3
    constructor <;> simp [Db.defaultPart, Preview.defaultPart, hd, h1, h2, h3]
  · intro hd
    constructor <;> simp [Db.defaultPart, Preview.defaultPart, hd]
  · intro hd hn
    simp [Db.defaultPart, hd, hn]
  · intro hd
    exact ⟨by simp [Db.defaultPart, hd],
      fun hn => by simp [Preview.defaultPart, hd, hn]⟩

/-- Claim C8 (amended): a new-table save with an empty column list is not
validated at all — `saveTableStructure` still builds (and executes) a
`CREATE TABLE` whose body is empty, the table options filled with their
fallbacks; no `ValidationError` exists in the code. -/
theorem C8_create_no_validation_amended (database tableName : String)
    (fks : List ForeignKeyDefinition) (options : TableOptions) :
    Db.createStatement database tableName [] [] fks options
      = "CREATE TABLE `" ++ database ++ "`.`" ++ tableName ++ "` (\n\n) ENGINE="
        ++ orDefault options.Engine "InnoDB"
        ++ " DEFAULT CHARSET=" ++ orDefault options.Charset "utf8mb4"
        ++ " COLLATE=" ++ orDefault options.Collation "utf8mb4_general_ci"
        ++ (if options.Comment ≠ "" then " COMMENT='" ++ options.Comment ++ "'" else "")
        ++ (if options.Auto_increment ≠ "" then " AUTO_INCREMENT=" ++ options.Auto_increment
            else "") := by
  simp only [Db.createStatement, Db.groupIndexes, List.map_nil, List.foldl_nil, List.append_nil,
    show ",\n".intercalate ([] : List String) = "" from rfl, String.append_empty]
  simp only [String.append_assoc]
  rw [← String.append_assoc "` (\n" "\n) ENGINE=" _]
  rfl

/-! ## Witnesses -/

/-- Witness for C1: the no-edit single-column state. -/
theorem C1_noop_save_witness :
    Preview.alterSql "shop" "t" [Fix.colA] [Fix.colA] [] [] [] [] emptyOptions emptyOptions
      = "-- No changes detected" :=
  (C1_noop_save_amended [Fix.colA] [] [] emptyOptions "shop" "t"
    (by decide) (by decide) (by decide) (by decide)).1

/-- Witness for C4: the secondary index `idx_email` present in both
snapshots is dropped and re-added. -/
theorem C4_indexes_witness :
    Db.dropIndexClause "idx_email"
        ∈ Db.idxDropClauses (Db.groupIndexes [Fix.idxEmail]) (Db.groupIndexes [Fix.idxEmail])
    ∧ ("ADD " ++ Db.buildIndexDef "idx_email" [Fix.idxEmail])
        ∈ Db.idxAddClauses (Db.groupIndexes [Fix.idxEmail])
    ∧ Db.dropIndexClause "idx_email"
        ∈ Db.alterClauses [] [] [Fix.idxEmail] [Fix.idxEmail] emptyOptions
    ∧ ("ADD " ++ Db.buildIndexDef "idx_email" [Fix.idxEmail])
        ∈ Db.alterClauses [] [] [Fix.idxEmail] [Fix.idxEmail] emptyOptions :=
  C4_indexes_dropped_and_readded [] [] [Fix.idxEmail] [Fix.idxEmail] emptyOptions
    "idx_email" [Fix.idxEmail] (by decide) (by decide)

/-- Witness for C5: the concrete rename of `a : int` to `a2` next to an
untouched `b`. -/
theorem C5_rename_witness :
    ∃ rest, Db.buildColumnDef Fix.colA2 = "`a2` " ++ rest
      ∧ Db.alterClauses [Fix.colA2, Fix.colB] [Fix.dbColA, Fix.dbColB] [] [] emptyOptions
        = ["CHANGE COLUMN `a` " ++ Db.buildColumnDef Fix.colA2,
           "MODIFY COLUMN " ++ Db.buildColumnDef Fix.colB] :=
  C5_rename_emits_change Fix.colA2 Fix.colB Fix.dbColA Fix.dbColB
    (by decide) (by decide) (by decide) (by decide) (by decide) (by decide)
    (by decide) (by decide)

/-- Witness for C7: changing only the delete rule of `fk_orders_user` from
`RESTRICT` to `CASCADE`. -/
theorem C7_fk_modify_witness :
    Preview.fkClauses [Fix.fkEdited] [Fix.fkOrig]
      = ["DROP FOREIGN KEY `" ++ Fix.fkOrig.CONSTRAINT_NAME ++ "`",
         "ADD " ++ Preview.buildFkDef Fix.fkEdited]
    ∧ (∃ pre, Preview.buildFkDef Fix.fkEdited
        = pre ++ " ON DELETE " ++ orDefault Fix.fkEdited.DELETE_RULE "RESTRICT")
    ∧ (∀ c ∈ Db.alterClauses [Fix.colA] [Fix.dbColA] [] [] emptyOptions,
        strIncludes c "FOREIGN KEY" = false) :=
  C7_fk_modify_divergence Fix.fkEdited Fix.fkOrig (by decide) (by decide) (by decide)
    (by decide) (by decide) (by decide) (by decide) (by decide) (by decide)

/-- Witness for C9: `decimal(10,2) unsigned zerofill` round-trips. -/
theorem C9_type_roundtrip_witness :
    (TypeDesc.parseType (TypeDesc.composeType "decimal" "10,2" true true)).type = "decimal"
    ∧ (TypeDesc.parseType (TypeDesc.composeType "decimal" "10,2" true true)).length = "10,2"
    ∧ (TypeDesc.parseType (TypeDesc.composeType "decimal" "10,2" true true)).unsigned = true
    ∧ (TypeDesc.parseType (TypeDesc.composeType "decimal" "10,2" true true)).zerofill = true :=
  C9_type_roundtrip "decimal" "10,2" true true (by decide) (by decide) (by decide)

end Hamster

namespace Hamster

/-- Witness for C10: deleting the single loaded foreign key marks it, and
its drop clause is emitted. -/
theorem C10_fk_delete_witness :
    Fix.fkDeleted.isNew = false ∧ Fix.fkDeleted.originalName ≠ ""
    ∧ ("DROP FOREIGN KEY `" ++ Fix.fkDeleted.originalName ++ "`")
        ∈ Preview.fkClauses
            (Editor.applyFkOps (Editor.loadForeignKeys [Fix.rawFk]) [Editor.FkOp.deleteFk 0])
            [] := by
  have h := C10_fk_delete_invariant [Fix.rawFk] [Editor.FkOp.deleteFk 0] (by decide)
    Fix.fkDeleted (by decide) (by decide)
  exact ⟨h.1, h.2.1, h.2.2 []⟩

end Hamster
